import Mathlib

/-!
Shallow embedding of the cruid crate (src/cruid.rs, src/encryption.rs,
src/error.rs, src/lib.rs) and proofs of the specification claims.

Bytes are modelled as natural numbers (Rust u8 values are < 256; theorems
carry that bound explicitly where it matters).  The base16ct hex codec and
the aes block cipher are external crates; the hex codec is modelled from
its documented behaviour as used here (lowercase encoding, mixed-case
decoding, InvalidLength on a too-small destination or odd source,
InvalidEncoding on a non-hex byte), and the block cipher is modelled from
the spec as an opaque pair of functions on 16-byte blocks.
-/

namespace CruidSpec

/-- Model of base16ct's error type: src is odd length or dst too small
gives InvalidLength; a non-hex byte gives InvalidEncoding. -/
inductive B16Error where
  | InvalidEncoding
  | InvalidLength
deriving DecidableEq

/-- Error type of src/error.rs. -/
inductive Error where
  | Decryption
  | Encoding
  | Length
deriving DecidableEq

/-- From impl for base16ct errors in src/error.rs. -/
def b16ToError : B16Error → Error
  | .InvalidEncoding => .Encoding
  | .InvalidLength => .Length

/-- A byte is an ASCII hex digit of either case. -/
def isHexDigit (c : Nat) : Bool :=
  (48 ≤ c && c ≤ 57) || (97 ≤ c && c ≤ 102) || (65 ≤ c && c ≤ 70)

/-- Value of a hex digit (0 on a non-digit; only observed under validity,
matching base16ct where a bad digit sets the error flag instead). -/
def decodeNibble (c : Nat) : Nat :=
  if 48 ≤ c ∧ c ≤ 57 then c - 48
  else if 97 ≤ c ∧ c ≤ 102 then c - 87
  else if 65 ≤ c ∧ c ≤ 70 then c - 55
  else 0

/-- Lowercase hex digit for a nibble (base16ct lower alphabet). -/
def encodeNibbleLower (n : Nat) : Nat :=
  if n < 10 then n + 48 else n + 87

/-- Decode consecutive pairs of hex digits into bytes, high nibble first. -/
def decodePairs : List Nat → List Nat
  | c1 :: c2 :: rest => (decodeNibble c1 * 16 + decodeNibble c2) :: decodePairs rest
  | _ => []

/-- Modelled from the spec and base16ct's documented behaviour:
mixed-case hex decode of src into a destination buffer of length dstLen. -/
def mixedDecode (src : List Nat) (dstLen : Nat) : Except B16Error (List Nat) :=
  if dstLen < src.length / 2 then .error .InvalidLength
  else if src.length % 2 ≠ 0 then .error .InvalidLength
  else if src.all isHexDigit then .ok (decodePairs src)
  else .error .InvalidEncoding

/-- Lowercase hex encoding of a byte list, two digits per byte. -/
def lowerEncodeList : List Nat → List Nat
  | [] => []
  | b :: rest =>
      encodeNibbleLower (b / 16) :: encodeNibbleLower (b % 16) :: lowerEncodeList rest

/-- Modelled from the spec and base16ct's documented behaviour:
lowercase hex encode into a destination buffer of length dstLen. -/
def lowerEncode (src : List Nat) (dstLen : Nat) : Except B16Error (List Nat) :=
  if dstLen < 2 * src.length then .error .InvalidLength
  else .ok (lowerEncodeList src)

/-- BYTES_RANGES of src/cruid.rs, as inclusive (lo, hi) pairs. -/
def BYTES_RANGES : List (Nat × Nat) := [(0, 3), (4, 5), (6, 7), (8, 9), (10, 15)]

/-- FIELD_RANGES of src/cruid.rs, as inclusive (lo, hi) pairs. -/
def FIELD_RANGES : List (Nat × Nat) := [(0, 7), (9, 12), (14, 17), (19, 22), (24, 35)]

/-- The subslice l[lo..=hi] for an inclusive range. -/
def sliceInc (l : List Nat) (r : Nat × Nat) : List Nat :=
  (l.drop r.1).take (r.2 + 1 - r.1)

/-- Overwrite l starting at index i with the bytes of v
(copy into a mutable subslice). -/
def setAt (l : List Nat) (i : Nat) (v : List Nat) : List Nat :=
  l.take i ++ v ++ l.drop (i + v.length)

/-- The Cruid struct: 36 ASCII bytes of a serialized CRUID. -/
structure Cruid where
  bytes : List Nat
deriving DecidableEq

/-- The per-field validation loop of Cruid::parse: hex-decode every field
into a 6-byte scratch buffer, propagating the first error. -/
def checkFields (bytes : List Nat) : List (Nat × Nat) → Except B16Error Unit
  | [] => .ok ()
  | r :: rest =>
      match mixedDecode (sliceInc bytes r) 6 with
      | .error e => .error e
      | .ok _ => checkFields bytes rest

/-- Cruid::parse of src/cruid.rs: length check (TryFromSliceError becomes
Error.Length), hyphen check at 8, 13, 18, 23, then field validation. -/
def Cruid.parse (string : List Nat) : Except Error Cruid :=
  if string.length = 36 then
    if [8, 13, 18, 23].all (fun i => string.getD i 0 == 45) then
      match checkFields string FIELD_RANGES with
      | .error e => .error (b16ToError e)
      | .ok _ => .ok ⟨string⟩
    else .error .Encoding
  else .error .Length

/-- One iteration of the encoding loop of Cruid::from_bytes: hex-encode
input[r.1] into the subslice output[r.2]; none models the expect branch. -/
def encodeStep (input output : List Nat) (r : (Nat × Nat) × (Nat × Nat)) :
    Option (List Nat) :=
  match lowerEncode (sliceInc input r.1) (r.2.2 + 1 - r.2.1) with
  | .error _ => none
  | .ok enc => some (setAt output r.2.1 enc)

/-- The encoding loop of Cruid::from_bytes over the zipped range lists. -/
def fromBytesLoop (input : List Nat) :
    List ((Nat × Nat) × (Nat × Nat)) → List Nat → Option (List Nat)
  | [], output => some output
  | r :: rest, output =>
      match encodeStep input output r with
      | none => none
      | some output2 => fromBytesLoop input rest output2

/-- Cruid::from_bytes of src/cruid.rs: start from 36 hyphen bytes and
hex-encode each byte range into its field range; none models the
(unreachable) expect "hex encode failed" branch. -/
def Cruid.from_bytes (input : List Nat) : Option Cruid :=
  (fromBytesLoop input (BYTES_RANGES.zip FIELD_RANGES) (List.replicate 36 45)).map Cruid.mk

/-- One iteration of the decoding loop of Cruid::to_bytes: hex-decode the
field self.bytes[r.1] into the subslice ret[r.2]; none models the expect
branch. -/
def decodeStep (bytes ret : List Nat) (r : (Nat × Nat) × (Nat × Nat)) :
    Option (List Nat) :=
  match mixedDecode (sliceInc bytes r.1) (r.2.2 + 1 - r.2.1) with
  | .error _ => none
  | .ok ds => some (setAt ret r.2.1 ds)

/-- The decoding loop of Cruid::to_bytes over the zipped range lists. -/
def toBytesLoop (bytes : List Nat) :
    List ((Nat × Nat) × (Nat × Nat)) → List Nat → Option (List Nat)
  | [], ret => some ret
  | r :: rest, ret =>
      match decodeStep bytes ret r with
      | none => none
      | some ret2 => toBytesLoop bytes rest ret2

/-- Cruid::to_bytes of src/cruid.rs: start from Bytes::default() (16 zero
bytes) and hex-decode each field into its byte range; none models the
(unreachable) expect "hex decode failed" branch. -/
def Cruid.to_bytes (c : Cruid) : Option (List Nat) :=
  toBytesLoop c.bytes (FIELD_RANGES.zip BYTES_RANGES) (List.replicate 16 0)

/-- Modelled from the spec: the external aes crate's Aes128 is a keyed
invertible transform on 16-byte blocks; an EncryptionKey is its
instantiated encrypt and decrypt directions.  The inverse and
block-preservation laws are stated as hypotheses where needed. -/
structure EncryptionKey where
  encrypt_block : List Nat → List Nat
  decrypt_block : List Nat → List Nat

/-- A well-formed 16-byte block: length 16, every entry a byte value. -/
def isBytes16 (b : List Nat) : Prop :=
  b.length = 16 ∧ ∀ x ∈ b, x < 256

/-- u64::to_le_bytes. -/
def leBytes8 (v : Nat) : List Nat :=
  [v % 256, v / 256 % 256, v / 256 ^ 2 % 256, v / 256 ^ 3 % 256,
   v / 256 ^ 4 % 256, v / 256 ^ 5 % 256, v / 256 ^ 6 % 256, v / 256 ^ 7 % 256]

/-- u64::from_le_bytes on a byte list (little-endian value). -/
def leU64 : List Nat → Nat
  | [] => 0
  | b :: rest => b + 256 * leU64 rest

/-- EncryptionKey::encrypt of src/encryption.rs: a zero block whose first
8 bytes are the little-endian plaintext, encrypted in place, then
formatted by Cruid::from_bytes. -/
def EncryptionKey.encrypt (k : EncryptionKey) (plaintext : Nat) : Option Cruid :=
  let block := setAt (List.replicate 16 0) 0 (leBytes8 plaintext)
  Cruid.from_bytes (k.encrypt_block block)

/-- EncryptionKey::decrypt of src/encryption.rs: decode the cruid to 16
bytes, decrypt the block in place, split at 8; each half converts to
[u8; 8] (Error.Length if its length is not 8, via TryFromSliceError);
a non-zero tag is Error.Decryption, otherwise the value is returned.
The outer none models the expect branch inside to_bytes. -/
def EncryptionKey.decrypt (k : EncryptionKey) (cruid : Cruid) :
    Option (Except Error Nat) :=
  match cruid.to_bytes with
  | none => none
  | some bs =>
      let block := k.decrypt_block bs
      let a := block.take 8
      let b := block.drop 8
      if a.length ≠ 8 then some (.error .Length)
      else if b.length ≠ 8 then some (.error .Length)
      else if leU64 b = 0 then some (.ok (leU64 a))
      else some (.error .Decryption)

/-- The CRUID text format invariant: 36 bytes, hyphens exactly at
positions 8, 13, 18, 23, a hex digit of either case everywhere else. -/
def validFormat (s : List Nat) : Prop :=
  s.length = 36 ∧ ∀ i < 36,
    if i = 8 ∨ i = 13 ∨ i = 18 ∨ i = 23 then s.getD i 0 = 45
    else isHexDigit (s.getD i 0) = true

instance validFormatDecidable (s : List Nat) : Decidable (validFormat s) := by
  unfold validFormat
  infer_instance

/-- A lowercase-only hex digit. -/
def isLowerHexDigit (c : Nat) : Bool :=
  (48 ≤ c && c ≤ 57) || (97 ≤ c && c ≤ 102)

/-- Lowercase a hex digit byte: map the uppercase alphabet into the
lowercase one, leave everything else unchanged. -/
def toLowerHex (c : Nat) : Nat :=
  if 65 ≤ c ∧ c ≤ 70 then c + 32 else c

/-! ### Example values (from the crate's tests) and a witness cipher -/

deriving instance DecidableEq for Except

/-- The test vector "123e4567-e89b-12d3-a456-426614174000" as ASCII bytes. -/
def EXAMPLE_CRUID : List Nat :=
  [49, 50, 51, 101, 52, 53, 54, 55, 45, 101, 56, 57, 98, 45, 49, 50, 100, 51,
   45, 97, 52, 53, 54, 45, 52, 50, 54, 54, 49, 52, 49, 55, 52, 48, 48, 48]

/-- The raw bytes of the test vector. -/
def EXAMPLE_BYTES : List Nat :=
  [18, 62, 69, 103, 232, 155, 18, 211, 164, 86, 66, 102, 20, 23, 64, 0]

/-- The test vector with the hex digit at position 19 uppercased (A456 field). -/
def EXAMPLE_CRUID_UPPER : List Nat :=
  [49, 50, 51, 101, 52, 53, 54, 55, 45, 101, 56, 57, 98, 45, 49, 50, 100, 51,
   45, 65, 52, 53, 54, 45, 52, 50, 54, 54, 49, 52, 49, 55, 52, 48, 48, 48]

/-- The identity block cipher: a concrete instance of the cipher contract
used to witness the cipher-parametric theorems. -/
def idKey : EncryptionKey := ⟨fun b => b, fun b => b⟩

/-! ### Hex digit lemmas -/

theorem decodeNibble_lt (c : Nat) : decodeNibble c < 16 := by
  unfold decodeNibble
  split_ifs <;> omega

theorem encodeNibbleLower_isHex {n : Nat} (h : n < 16) :
    isHexDigit (encodeNibbleLower n) = true := by
  simp only [isHexDigit, encodeNibbleLower, Bool.or_eq_true, Bool.and_eq_true,
    decide_eq_true_eq]
  split_ifs <;> omega

theorem encodeNibbleLower_isLower {n : Nat} (h : n < 16) :
    isLowerHexDigit (encodeNibbleLower n) = true := by
  simp only [isLowerHexDigit, encodeNibbleLower, Bool.or_eq_true, Bool.and_eq_true,
    decide_eq_true_eq]
  split_ifs <;> omega

theorem encodeNibbleLower_notUpper {n : Nat} (h : n < 16) :
    ¬(65 ≤ encodeNibbleLower n ∧ encodeNibbleLower n ≤ 70) := by
  simp only [encodeNibbleLower]
  split_ifs <;> omega

theorem encodeNibbleLower_lt128 {n : Nat} (h : n < 16) : encodeNibbleLower n < 128 := by
  simp only [encodeNibbleLower]
  split_ifs <;> omega

theorem decode_encodeNibbleLower {n : Nat} (h : n < 16) :
    decodeNibble (encodeNibbleLower n) = n := by
  simp only [encodeNibbleLower, decodeNibble]
  split_ifs <;> omega

theorem encode_decodeNibble {c : Nat} (h : isHexDigit c = true) :
    encodeNibbleLower (decodeNibble c) = toLowerHex c := by
  simp only [isHexDigit, Bool.or_eq_true, Bool.and_eq_true, decide_eq_true_eq] at h
  simp only [decodeNibble, encodeNibbleLower, toLowerHex]
  split_ifs <;> omega

theorem isHexDigit_lt128 {c : Nat} (h : isHexDigit c = true) : c < 128 := by
  simp only [isHexDigit, Bool.or_eq_true, Bool.and_eq_true, decide_eq_true_eq] at h
  omega

theorem toLowerHex_eq_self_iff {c : Nat} : toLowerHex c = c ↔ ¬(65 ≤ c ∧ c ≤ 70) := by
  simp only [toLowerHex]
  split_ifs <;> omega

theorem toLowerHex_notUpper (c : Nat) :
    ¬(65 ≤ toLowerHex c ∧ toLowerHex c ≤ 70) := by
  simp only [toLowerHex]
  split_ifs <;> omega

/-! ### Pointwise pair lemmas for the hex codec round trips -/

theorem isHex_enc_div {b : Nat} (h : b < 256) :
    isHexDigit (encodeNibbleLower (b / 16)) = true :=
  encodeNibbleLower_isHex (by omega)

theorem isHex_enc_mod (b : Nat) : isHexDigit (encodeNibbleLower (b % 16)) = true :=
  encodeNibbleLower_isHex (by omega)

theorem pair_recombine {b : Nat} (h : b < 256) :
    decodeNibble (encodeNibbleLower (b / 16)) * 16
      + decodeNibble (encodeNibbleLower (b % 16)) = b := by
  rw [decode_encodeNibbleLower (by omega), decode_encodeNibbleLower (by omega)]
  omega

theorem pair_div (a b : Nat) :
    (decodeNibble a * 16 + decodeNibble b) / 16 = decodeNibble a := by
  have := decodeNibble_lt b
  omega

theorem pair_mod (a b : Nat) :
    (decodeNibble a * 16 + decodeNibble b) % 16 = decodeNibble b := by
  have := decodeNibble_lt b
  omega

theorem pair_lt256 (a b : Nat) : decodeNibble a * 16 + decodeNibble b < 256 := by
  have := decodeNibble_lt a
  have := decodeNibble_lt b
  omega

theorem enc_pair_div {a : Nat} (b : Nat) (h : isHexDigit a = true) :
    encodeNibbleLower ((decodeNibble a * 16 + decodeNibble b) / 16) = toLowerHex a := by
  rw [pair_div, encode_decodeNibble h]

theorem enc_pair_mod (a : Nat) {b : Nat} (h : isHexDigit b = true) :
    encodeNibbleLower ((decodeNibble a * 16 + decodeNibble b) % 16) = toLowerHex b := by
  rw [pair_mod, encode_decodeNibble h]

/-- Peel one cons cell off a list of known positive length. -/
theorem list_eq_cons (s : List Nat) (n : Nat) (h : s.length = n + 1) :
    ∃ a t, t.length = n ∧ s = a :: t := by
  cases s with
  | nil => simp at h
  | cons a t => exact ⟨a, t, by simpa using h, rfl⟩

/-- A list of length 16 is a literal 16-element list. -/
theorem list_eq_16 (s : List Nat) (h : s.length = 16) :
    ∃ b0 b1 b2 b3 b4 b5 b6 b7 b8 b9 b10 b11 b12 b13 b14 b15, s = [b0, b1, b2, b3, b4, b5, b6, b7, b8, b9, b10, b11, b12, b13, b14, b15] := by
  obtain ⟨b0, s, h0, rfl⟩ := list_eq_cons s 15 h
  obtain ⟨b1, s, h1, rfl⟩ := list_eq_cons s 14 h0
  obtain ⟨b2, s, h2, rfl⟩ := list_eq_cons s 13 h1
  obtain ⟨b3, s, h3, rfl⟩ := list_eq_cons s 12 h2
  obtain ⟨b4, s, h4, rfl⟩ := list_eq_cons s 11 h3
  obtain ⟨b5, s, h5, rfl⟩ := list_eq_cons s 10 h4
  obtain ⟨b6, s, h6, rfl⟩ := list_eq_cons s 9 h5
  obtain ⟨b7, s, h7, rfl⟩ := list_eq_cons s 8 h6
  obtain ⟨b8, s, h8, rfl⟩ := list_eq_cons s 7 h7
  obtain ⟨b9, s, h9, rfl⟩ := list_eq_cons s 6 h8
  obtain ⟨b10, s, h10, rfl⟩ := list_eq_cons s 5 h9
  obtain ⟨b11, s, h11, rfl⟩ := list_eq_cons s 4 h10
  obtain ⟨b12, s, h12, rfl⟩ := list_eq_cons s 3 h11
  obtain ⟨b13, s, h13, rfl⟩ := list_eq_cons s 2 h12
  obtain ⟨b14, s, h14, rfl⟩ := list_eq_cons s 1 h13
  obtain ⟨b15, s, h15, rfl⟩ := list_eq_cons s 0 h14
  rw [List.length_eq_zero] at h15
  subst h15
  exact ⟨b0, b1, b2, b3, b4, b5, b6, b7, b8, b9, b10, b11, b12, b13, b14, b15, rfl⟩

/-- A list of length 36 is a literal 36-element list. -/
theorem list_eq_36 (s : List Nat) (h : s.length = 36) :
    ∃ c0 c1 c2 c3 c4 c5 c6 c7 c8 c9 c10 c11 c12 c13 c14 c15 c16 c17 c18 c19 c20 c21 c22 c23 c24 c25 c26 c27 c28 c29 c30 c31 c32 c33 c34 c35, s = [c0, c1, c2, c3, c4, c5, c6, c7, c8, c9, c10, c11, c12, c13, c14, c15, c16, c17, c18, c19, c20, c21, c22, c23, c24, c25, c26, c27, c28, c29, c30, c31, c32, c33, c34, c35] := by
  obtain ⟨c0, s, h0, rfl⟩ := list_eq_cons s 35 h
  obtain ⟨c1, s, h1, rfl⟩ := list_eq_cons s 34 h0
  obtain ⟨c2, s, h2, rfl⟩ := list_eq_cons s 33 h1
  obtain ⟨c3, s, h3, rfl⟩ := list_eq_cons s 32 h2
  obtain ⟨c4, s, h4, rfl⟩ := list_eq_cons s 31 h3
  obtain ⟨c5, s, h5, rfl⟩ := list_eq_cons s 30 h4
  obtain ⟨c6, s, h6, rfl⟩ := list_eq_cons s 29 h5
  obtain ⟨c7, s, h7, rfl⟩ := list_eq_cons s 28 h6
  obtain ⟨c8, s, h8, rfl⟩ := list_eq_cons s 27 h7
  obtain ⟨c9, s, h9, rfl⟩ := list_eq_cons s 26 h8
  obtain ⟨c10, s, h10, rfl⟩ := list_eq_cons s 25 h9
  obtain ⟨c11, s, h11, rfl⟩ := list_eq_cons s 24 h10
  obtain ⟨c12, s, h12, rfl⟩ := list_eq_cons s 23 h11
  obtain ⟨c13, s, h13, rfl⟩ := list_eq_cons s 22 h12
  obtain ⟨c14, s, h14, rfl⟩ := list_eq_cons s 21 h13
  obtain ⟨c15, s, h15, rfl⟩ := list_eq_cons s 20 h14
  obtain ⟨c16, s, h16, rfl⟩ := list_eq_cons s 19 h15
  obtain ⟨c17, s, h17, rfl⟩ := list_eq_cons s 18 h16
  obtain ⟨c18, s, h18, rfl⟩ := list_eq_cons s 17 h17
  obtain ⟨c19, s, h19, rfl⟩ := list_eq_cons s 16 h18
  obtain ⟨c20, s, h20, rfl⟩ := list_eq_cons s 15 h19
  obtain ⟨c21, s, h21, rfl⟩ := list_eq_cons s 14 h20
  obtain ⟨c22, s, h22, rfl⟩ := list_eq_cons s 13 h21
  obtain ⟨c23, s, h23, rfl⟩ := list_eq_cons s 12 h22
  obtain ⟨c24, s, h24, rfl⟩ := list_eq_cons s 11 h23
  obtain ⟨c25, s, h25, rfl⟩ := list_eq_cons s 10 h24
  obtain ⟨c26, s, h26, rfl⟩ := list_eq_cons s 9 h25
  obtain ⟨c27, s, h27, rfl⟩ := list_eq_cons s 8 h26
  obtain ⟨c28, s, h28, rfl⟩ := list_eq_cons s 7 h27
  obtain ⟨c29, s, h29, rfl⟩ := list_eq_cons s 6 h28
  obtain ⟨c30, s, h30, rfl⟩ := list_eq_cons s 5 h29
  obtain ⟨c31, s, h31, rfl⟩ := list_eq_cons s 4 h30
  obtain ⟨c32, s, h32, rfl⟩ := list_eq_cons s 3 h31
  obtain ⟨c33, s, h33, rfl⟩ := list_eq_cons s 2 h32
  obtain ⟨c34, s, h34, rfl⟩ := list_eq_cons s 1 h33
  obtain ⟨c35, s, h35, rfl⟩ := list_eq_cons s 0 h34
  rw [List.length_eq_zero] at h35
  subst h35
  exact ⟨c0, c1, c2, c3, c4, c5, c6, c7, c8, c9, c10, c11, c12, c13, c14, c15, c16, c17, c18, c19, c20, c21, c22, c23, c24, c25, c26, c27, c28, c29, c30, c31, c32, c33, c34, c35, rfl⟩

/-! ### Characterization of Cruid.parse -/

theorem parse_ok_bytes {s : List Nat} {c : Cruid}
    (h : Cruid.parse s = .ok c) : c = ⟨s⟩ := by
  unfold Cruid.parse at h
  split at h
  · split at h
    · split at h
      · simp at h
      · simp only [Except.ok.injEq] at h
        exact h.symm
    · simp at h
  · simp at h

theorem parse_ok_of_valid {s : List Nat} (h : validFormat s) :
    Cruid.parse s = .ok ⟨s⟩ := by
  obtain ⟨h1, h2⟩ := h
  obtain ⟨c0, c1, c2, c3, c4, c5, c6, c7, c8, c9, c10, c11, c12, c13, c14, c15, c16, c17, c18, c19, c20, c21, c22, c23, c24, c25, c26, c27, c28, c29, c30, c31, c32, c33, c34, c35, rfl⟩ := list_eq_36 s h1
  have g0 := h2 0 (by omega)
  have g1 := h2 1 (by omega)
  have g2 := h2 2 (by omega)
  have g3 := h2 3 (by omega)
  have g4 := h2 4 (by omega)
  have g5 := h2 5 (by omega)
  have g6 := h2 6 (by omega)
  have g7 := h2 7 (by omega)
  have g8 := h2 8 (by omega)
  have g9 := h2 9 (by omega)
  have g10 := h2 10 (by omega)
  have g11 := h2 11 (by omega)
  have g12 := h2 12 (by omega)
  have g13 := h2 13 (by omega)
  have g14 := h2 14 (by omega)
  have g15 := h2 15 (by omega)
  have g16 := h2 16 (by omega)
  have g17 := h2 17 (by omega)
  have g18 := h2 18 (by omega)
  have g19 := h2 19 (by omega)
  have g20 := h2 20 (by omega)
  have g21 := h2 21 (by omega)
  have g22 := h2 22 (by omega)
  have g23 := h2 23 (by omega)
  have g24 := h2 24 (by omega)
  have g25 := h2 25 (by omega)
  have g26 := h2 26 (by omega)
  have g27 := h2 27 (by omega)
  have g28 := h2 28 (by omega)
  have g29 := h2 29 (by omega)
  have g30 := h2 30 (by omega)
  have g31 := h2 31 (by omega)
  have g32 := h2 32 (by omega)
  have g33 := h2 33 (by omega)
  have g34 := h2 34 (by omega)
  have g35 := h2 35 (by omega)
  simp only [List.getD_cons_zero, List.getD_cons_succ] at g0 g1 g2 g3 g4 g5 g6 g7 g8 g9 g10 g11 g12 g13 g14 g15 g16 g17 g18 g19 g20 g21 g22 g23 g24 g25 g26 g27 g28 g29 g30 g31 g32 g33 g34 g35
  norm_num at g0 g1 g2 g3 g4 g5 g6 g7 g8 g9 g10 g11 g12 g13 g14 g15 g16 g17 g18 g19 g20 g21 g22 g23 g24 g25 g26 g27 g28 g29 g30 g31 g32 g33 g34 g35
  simp [Cruid.parse, checkFields, FIELD_RANGES, mixedDecode, sliceInc,
    g0, g1, g2, g3, g4, g5, g6, g7, g8, g9, g10, g11, g12, g13, g14, g15, g16, g17, g18, g19, g20, g21, g22, g23, g24, g25, g26, g27, g28, g29, g30, g31, g32, g33, g34, g35]

theorem valid_of_parse_ok {s : List Nat} {c : Cruid}
    (h : Cruid.parse s = .ok c) : validFormat s := by
  have h36 : s.length = 36 := by
    by_contra hn
    unfold Cruid.parse at h
    rw [if_neg hn] at h
    simp at h
  have hall : ([8, 13, 18, 23].all (fun i => s.getD i 0 == 45)) = true := by
    by_contra hn
    unfold Cruid.parse at h
    rw [if_pos h36, if_neg hn] at h
    simp at h
  have hcf : checkFields s FIELD_RANGES = .ok () := by
    cases hck : checkFields s FIELD_RANGES with
    | ok u => rfl
    | error e =>
      unfold Cruid.parse at h
      rw [if_pos h36, if_pos hall, hck] at h
      simp at h
  clear h
  obtain ⟨c0, c1, c2, c3, c4, c5, c6, c7, c8, c9, c10, c11, c12, c13, c14, c15, c16, c17, c18, c19, c20, c21, c22, c23, c24, c25, c26, c27, c28, c29, c30, c31, c32, c33, c34, c35, rfl⟩ := list_eq_36 s h36
  simp only [List.all_cons, List.all_nil, List.getD_cons_zero, List.getD_cons_succ,
    Bool.and_true, Bool.and_eq_true, beq_iff_eq] at hall
  simp only [checkFields, FIELD_RANGES, mixedDecode, sliceInc] at hcf
  norm_num at hcf
  split_ifs at hcf with hf0 hf1 hf2 hf3 hf4
  all_goals simp_all
  refine ⟨by simp, ?_⟩
  intro i hi
  interval_cases i <;> simp_all

/-- Explicit form of Cruid.from_bytes on a literal 16-byte list. -/
theorem from_bytes_explicit {b0 b1 b2 b3 b4 b5 b6 b7 b8 b9 b10 b11 b12 b13 b14 b15 : Nat} :
    Cruid.from_bytes [b0, b1, b2, b3, b4, b5, b6, b7, b8, b9, b10, b11, b12, b13, b14, b15] =
      some ⟨[encodeNibbleLower (b0 / 16),
       encodeNibbleLower (b0 % 16),
       encodeNibbleLower (b1 / 16),
       encodeNibbleLower (b1 % 16),
       encodeNibbleLower (b2 / 16),
       encodeNibbleLower (b2 % 16),
       encodeNibbleLower (b3 / 16),
       encodeNibbleLower (b3 % 16),
       45,
       encodeNibbleLower (b4 / 16),
       encodeNibbleLower (b4 % 16),
       encodeNibbleLower (b5 / 16),
       encodeNibbleLower (b5 % 16),
       45,
       encodeNibbleLower (b6 / 16),
       encodeNibbleLower (b6 % 16),
       encodeNibbleLower (b7 / 16),
       encodeNibbleLower (b7 % 16),
       45,
       encodeNibbleLower (b8 / 16),
       encodeNibbleLower (b8 % 16),
       encodeNibbleLower (b9 / 16),
       encodeNibbleLower (b9 % 16),
       45,
       encodeNibbleLower (b10 / 16),
       encodeNibbleLower (b10 % 16),
       encodeNibbleLower (b11 / 16),
       encodeNibbleLower (b11 % 16),
       encodeNibbleLower (b12 / 16),
       encodeNibbleLower (b12 % 16),
       encodeNibbleLower (b13 / 16),
       encodeNibbleLower (b13 % 16),
       encodeNibbleLower (b14 / 16),
       encodeNibbleLower (b14 % 16),
       encodeNibbleLower (b15 / 16),
       encodeNibbleLower (b15 % 16)]⟩ := by
  simp [Cruid.from_bytes, fromBytesLoop, encodeStep, lowerEncode, lowerEncodeList,
    BYTES_RANGES, FIELD_RANGES, sliceInc, setAt]

/-- Explicit form of Cruid.to_bytes on a literal 36-byte CRUID whose
field characters are hex digits. -/
theorem to_bytes_explicit {c0 c1 c2 c3 c4 c5 c6 c7 c8 c9 c10 c11 c12 c13 c14 c15 c16 c17 c18 c19 c20 c21 c22 c23 c24 c25 c26 c27 c28 c29 c30 c31 c32 c33 c34 c35 : Nat}
    (g0 : isHexDigit c0 = true)
    (g1 : isHexDigit c1 = true)
    (g2 : isHexDigit c2 = true)
    (g3 : isHexDigit c3 = true)
    (g4 : isHexDigit c4 = true)
    (g5 : isHexDigit c5 = true)
    (g6 : isHexDigit c6 = true)
    (g7 : isHexDigit c7 = true)
    (g9 : isHexDigit c9 = true)
    (g10 : isHexDigit c10 = true)
    (g11 : isHexDigit c11 = true)
    (g12 : isHexDigit c12 = true)
    (g14 : isHexDigit c14 = true)
    (g15 : isHexDigit c15 = true)
    (g16 : isHexDigit c16 = true)
    (g17 : isHexDigit c17 = true)
    (g19 : isHexDigit c19 = true)
    (g20 : isHexDigit c20 = true)
    (g21 : isHexDigit c21 = true)
    (g22 : isHexDigit c22 = true)
    (g24 : isHexDigit c24 = true)
    (g25 : isHexDigit c25 = true)
    (g26 : isHexDigit c26 = true)
    (g27 : isHexDigit c27 = true)
    (g28 : isHexDigit c28 = true)
    (g29 : isHexDigit c29 = true)
    (g30 : isHexDigit c30 = true)
    (g31 : isHexDigit c31 = true)
    (g32 : isHexDigit c32 = true)
    (g33 : isHexDigit c33 = true)
    (g34 : isHexDigit c34 = true)
    (g35 : isHexDigit c35 = true) :
    Cruid.to_bytes ⟨[c0, c1, c2, c3, c4, c5, c6, c7, c8, c9, c10, c11, c12, c13, c14, c15, c16, c17, c18, c19, c20, c21, c22, c23, c24, c25, c26, c27, c28, c29, c30, c31, c32, c33, c34, c35]⟩ =
      some [decodeNibble c0 * 16 + decodeNibble c1,
       decodeNibble c2 * 16 + decodeNibble c3,
       decodeNibble c4 * 16 + decodeNibble c5,
       decodeNibble c6 * 16 + decodeNibble c7,
       decodeNibble c9 * 16 + decodeNibble c10,
       decodeNibble c11 * 16 + decodeNibble c12,
       decodeNibble c14 * 16 + decodeNibble c15,
       decodeNibble c16 * 16 + decodeNibble c17,
       decodeNibble c19 * 16 + decodeNibble c20,
       decodeNibble c21 * 16 + decodeNibble c22,
       decodeNibble c24 * 16 + decodeNibble c25,
       decodeNibble c26 * 16 + decodeNibble c27,
       decodeNibble c28 * 16 + decodeNibble c29,
       decodeNibble c30 * 16 + decodeNibble c31,
       decodeNibble c32 * 16 + decodeNibble c33,
       decodeNibble c34 * 16 + decodeNibble c35] := by
  simp [Cruid.to_bytes, toBytesLoop, decodeStep, FIELD_RANGES, BYTES_RANGES,
    mixedDecode, sliceInc, setAt, decodePairs, g0, g1, g2, g3, g4, g5, g6, g7, g9, g10, g11, g12, g14, g15, g16, g17, g19, g20, g21, g22, g24, g25, g26, g27, g28, g29, g30, g31, g32, g33, g34, g35]

theorem isLower_enc_div {b : Nat} (h : b < 256) :
    isLowerHexDigit (encodeNibbleLower (b / 16)) = true :=
  encodeNibbleLower_isLower (by omega)

theorem isLower_enc_mod (b : Nat) : isLowerHexDigit (encodeNibbleLower (b % 16)) = true :=
  encodeNibbleLower_isLower (by omega)

theorem toLowerHex_hyphen : toLowerHex 45 = 45 := by decide

/-- Round trip and output format of Cruid.from_bytes on a 16-byte input. -/
theorem from_bytes_spec (r : List Nat) (h16 : r.length = 16)
    (hlt : ∀ x ∈ r, x < 256) :
    ∃ c, Cruid.from_bytes r = some c ∧ Cruid.to_bytes c = some r ∧
      c.bytes.length = 36 ∧ validFormat c.bytes ∧
      ∀ i < 36, if i = 8 ∨ i = 13 ∨ i = 18 ∨ i = 23 then c.bytes.getD i 0 = 45
        else isLowerHexDigit (c.bytes.getD i 0) = true := by
  obtain ⟨b0, b1, b2, b3, b4, b5, b6, b7, b8, b9, b10, b11, b12, b13, b14, b15, rfl⟩ := list_eq_16 r h16
  have k0 : b0 < 256 := hlt b0 (by simp)
  have k1 : b1 < 256 := hlt b1 (by simp)
  have k2 : b2 < 256 := hlt b2 (by simp)
  have k3 : b3 < 256 := hlt b3 (by simp)
  have k4 : b4 < 256 := hlt b4 (by simp)
  have k5 : b5 < 256 := hlt b5 (by simp)
  have k6 : b6 < 256 := hlt b6 (by simp)
  have k7 : b7 < 256 := hlt b7 (by simp)
  have k8 : b8 < 256 := hlt b8 (by simp)
  have k9 : b9 < 256 := hlt b9 (by simp)
  have k10 : b10 < 256 := hlt b10 (by simp)
  have k11 : b11 < 256 := hlt b11 (by simp)
  have k12 : b12 < 256 := hlt b12 (by simp)
  have k13 : b13 < 256 := hlt b13 (by simp)
  have k14 : b14 < 256 := hlt b14 (by simp)
  have k15 : b15 < 256 := hlt b15 (by simp)
  rw [from_bytes_explicit]
  refine ⟨_, rfl, ?_, by simp, ⟨by simp, ?_⟩, ?_⟩
  · rw [to_bytes_explicit
      (isHex_enc_div k0) (isHex_enc_mod b0) (isHex_enc_div k1) (isHex_enc_mod b1)
      (isHex_enc_div k2) (isHex_enc_mod b2) (isHex_enc_div k3) (isHex_enc_mod b3)
      (isHex_enc_div k4) (isHex_enc_mod b4) (isHex_enc_div k5) (isHex_enc_mod b5)
      (isHex_enc_div k6) (isHex_enc_mod b6) (isHex_enc_div k7) (isHex_enc_mod b7)
      (isHex_enc_div k8) (isHex_enc_mod b8) (isHex_enc_div k9) (isHex_enc_mod b9)
      (isHex_enc_div k10) (isHex_enc_mod b10) (isHex_enc_div k11) (isHex_enc_mod b11)
      (isHex_enc_div k12) (isHex_enc_mod b12) (isHex_enc_div k13) (isHex_enc_mod b13)
      (isHex_enc_div k14) (isHex_enc_mod b14) (isHex_enc_div k15) (isHex_enc_mod b15)]
    simp only [pair_recombine k0, pair_recombine k1, pair_recombine k2, pair_recombine k3, pair_recombine k4, pair_recombine k5, pair_recombine k6, pair_recombine k7, pair_recombine k8, pair_recombine k9, pair_recombine k10, pair_recombine k11, pair_recombine k12, pair_recombine k13, pair_recombine k14, pair_recombine k15]
  · intro i hi
    interval_cases i <;>
      simp [isHex_enc_div, isHex_enc_mod, k0, k1, k2, k3, k4, k5, k6, k7, k8, k9, k10, k11, k12, k13, k14, k15]
  · intro i hi
    interval_cases i <;>
      simp [isLower_enc_div, isLower_enc_mod, k0, k1, k2, k3, k4, k5, k6, k7, k8, k9, k10, k11, k12, k13, k14, k15]

/-- On a valid CRUID text, to_bytes succeeds with a well-formed 16-byte
value, and re-encoding that value gives the lowercased text. -/
theorem to_bytes_valid_spec (s : List Nat) (h : validFormat s) :
    ∃ r, Cruid.to_bytes ⟨s⟩ = some r ∧ r.length = 16 ∧ (∀ x ∈ r, x < 256) ∧
      Cruid.from_bytes r = some ⟨s.map toLowerHex⟩ := by
  obtain ⟨h1, h2⟩ := h
  obtain ⟨c0, c1, c2, c3, c4, c5, c6, c7, c8, c9, c10, c11, c12, c13, c14, c15, c16, c17, c18, c19, c20, c21, c22, c23, c24, c25, c26, c27, c28, c29, c30, c31, c32, c33, c34, c35, rfl⟩ := list_eq_36 s h1
  have g0 := h2 0 (by omega)
  have g1 := h2 1 (by omega)
  have g2 := h2 2 (by omega)
  have g3 := h2 3 (by omega)
  have g4 := h2 4 (by omega)
  have g5 := h2 5 (by omega)
  have g6 := h2 6 (by omega)
  have g7 := h2 7 (by omega)
  have g8 := h2 8 (by omega)
  have g9 := h2 9 (by omega)
  have g10 := h2 10 (by omega)
  have g11 := h2 11 (by omega)
  have g12 := h2 12 (by omega)
  have g13 := h2 13 (by omega)
  have g14 := h2 14 (by omega)
  have g15 := h2 15 (by omega)
  have g16 := h2 16 (by omega)
  have g17 := h2 17 (by omega)
  have g18 := h2 18 (by omega)
  have g19 := h2 19 (by omega)
  have g20 := h2 20 (by omega)
  have g21 := h2 21 (by omega)
  have g22 := h2 22 (by omega)
  have g23 := h2 23 (by omega)
  have g24 := h2 24 (by omega)
  have g25 := h2 25 (by omega)
  have g26 := h2 26 (by omega)
  have g27 := h2 27 (by omega)
  have g28 := h2 28 (by omega)
  have g29 := h2 29 (by omega)
  have g30 := h2 30 (by omega)
  have g31 := h2 31 (by omega)
  have g32 := h2 32 (by omega)
  have g33 := h2 33 (by omega)
  have g34 := h2 34 (by omega)
  have g35 := h2 35 (by omega)
  simp only [List.getD_cons_zero, List.getD_cons_succ] at g0 g1 g2 g3 g4 g5 g6 g7 g8 g9 g10 g11 g12 g13 g14 g15 g16 g17 g18 g19 g20 g21 g22 g23 g24 g25 g26 g27 g28 g29 g30 g31 g32 g33 g34 g35
  norm_num at g0 g1 g2 g3 g4 g5 g6 g7 g8 g9 g10 g11 g12 g13 g14 g15 g16 g17 g18 g19 g20 g21 g22 g23 g24 g25 g26 g27 g28 g29 g30 g31 g32 g33 g34 g35
  rw [to_bytes_explicit g0 g1 g2 g3 g4 g5 g6 g7 g9 g10 g11 g12 g14 g15 g16 g17 g19 g20 g21 g22 g24 g25 g26 g27 g28 g29 g30 g31 g32 g33 g34 g35]
  refine ⟨_, rfl, by simp, ?_, ?_⟩
  · simp [pair_lt256]
  · rw [from_bytes_explicit]
    simp [enc_pair_div, enc_pair_mod, toLowerHex_hyphen, g0, g1, g2, g3, g4, g5, g6, g7, g8, g9, g10, g11, g12, g13, g14, g15, g16, g17, g18, g19, g20, g21, g22, g23, g24, g25, g26, g27, g28, g29, g30, g31, g32, g33, g34, g35]

/-! ### Remaining helper lemmas -/

theorem map_toLowerHex_eq_self {s : List Nat} :
    s.map toLowerHex = s ↔ ∀ x ∈ s, ¬(65 ≤ x ∧ x ≤ 70) := by
  induction s with
  | nil => simp
  | cons a t ih =>
      simp only [List.map_cons, List.cons.injEq, List.mem_cons, ih]
      constructor
      · rintro ⟨h1, h2⟩ x (rfl | hx)
        · exact toLowerHex_eq_self_iff.mp h1
        · exact h2 x hx
      · intro h
        exact ⟨toLowerHex_eq_self_iff.mpr (h a (Or.inl rfl)),
          fun x hx => h x (Or.inr hx)⟩

theorem validFormat_ascii {s : List Nat} (h : validFormat s) :
    ∀ x ∈ s, x < 128 := by
  obtain ⟨h1, h2⟩ := h
  intro x hx
  obtain ⟨i, hi, rfl⟩ := List.getElem_of_mem hx
  have hg := h2 i (by omega)
  rw [List.getD_eq_getElem s 0 hi] at hg
  split at hg
  · omega
  · exact isHexDigit_lt128 hg

theorem parse_length_error {s : List Nat} (h : s.length ≠ 36) :
    Cruid.parse s = .error .Length := by
  unfold Cruid.parse
  rw [if_neg h]

theorem parse_hyphen_error {s : List Nat} {p : Nat} (h36 : s.length = 36)
    (hp : p = 8 ∨ p = 13 ∨ p = 18 ∨ p = 23) (hne : s.getD p 0 ≠ 45) :
    Cruid.parse s = .error .Encoding := by
  unfold Cruid.parse
  rw [if_pos h36, if_neg]
  simp only [List.all_cons, List.all_nil, Bool.and_true, Bool.and_eq_true,
    beq_iff_eq]
  rcases hp with rfl | rfl | rfl | rfl <;> tauto

theorem leU64_leBytes8 (v : Nat) : leU64 (leBytes8 v) = v % 2 ^ 64 := by
  simp only [leBytes8, leU64]
  norm_num
  omega

theorem leU64_zero_tag : leU64 (List.replicate 8 0) = 0 := by decide

theorem leBytes8_length (v : Nat) : (leBytes8 v).length = 8 := by
  simp [leBytes8]

theorem leBytes8_lt256 (v : Nat) : ∀ x ∈ leBytes8 v, x < 256 := by
  intro x hx
  simp only [leBytes8, List.mem_cons, List.not_mem_nil, or_false] at hx
  rcases hx with rfl | rfl | rfl | rfl | rfl | rfl | rfl | rfl <;> omega

/-- The plaintext block built by encrypt is the little-endian value
followed by the 8-byte zero tag. -/
theorem encrypt_block_shape (v : Nat) :
    setAt (List.replicate 16 0) 0 (leBytes8 v) = leBytes8 v ++ List.replicate 8 0 := rfl

theorem encrypt_block_wf (v : Nat) :
    isBytes16 (leBytes8 v ++ List.replicate 8 0) := by
  constructor
  · simp [leBytes8]
  · intro x hx
    rw [List.mem_append] at hx
    rcases hx with hx | hx
    · exact leBytes8_lt256 v x hx
    · rw [List.eq_of_mem_replicate hx]
      omega

/-! ### Claim theorems -/

/-- C1: for every key (any cipher satisfying the block-cipher contract:
decryption inverts encryption and blocks stay 16 well-formed bytes) and
every 64-bit value v, decrypt(k, encrypt(k, v)) = Ok(v). -/
theorem C1_decrypt_encrypt (k : EncryptionKey) (v : Nat) (hv : v < 2 ^ 64)
    (hinv : ∀ b, k.decrypt_block (k.encrypt_block b) = b)
    (hwf : ∀ b, isBytes16 b → isBytes16 (k.encrypt_block b)) :
    ∃ c, k.encrypt v = some c ∧ k.decrypt c = some (.ok v) := by
  obtain ⟨hBlen, hBlt⟩ := hwf _ (encrypt_block_wf v)
  obtain ⟨c, hc1, hc2, -, -, -⟩ :=
    from_bytes_spec (k.encrypt_block (leBytes8 v ++ List.replicate 8 0)) hBlen hBlt
  refine ⟨c, ?_, ?_⟩
  · unfold EncryptionKey.encrypt
    rw [encrypt_block_shape]
    exact hc1
  · unfold EncryptionKey.decrypt
    simp only [hc2, hinv]
    rw [List.take_left' (leBytes8_length v), List.drop_left' (leBytes8_length v)]
    rw [if_neg (by simp [leBytes8]), if_neg (by simp), if_pos leU64_zero_tag]
    rw [leU64_leBytes8, Nat.mod_eq_of_lt hv]

/-- C1 witness: the identity cipher at v = 42. -/
theorem C1_witness :
    ∃ c, idKey.encrypt 42 = some c ∧ idKey.decrypt c = some (.ok 42) :=
  C1_decrypt_encrypt idKey 42 (by norm_num) (fun b => rfl) (fun b h => h)

/-- C2: for every 16-byte value r, from_bytes succeeds and
to_bytes (from_bytes r) = r. -/
theorem C2_roundtrip (r : List Nat) (h16 : r.length = 16)
    (hlt : ∀ x ∈ r, x < 256) :
    ∃ c, Cruid.from_bytes r = some c ∧ Cruid.to_bytes c = some r := by
  obtain ⟨c, h1, h2, -, -, -⟩ := from_bytes_spec r h16 hlt
  exact ⟨c, h1, h2⟩

/-- C2 witness: the crate's test vector. -/
theorem C2_witness :
    ∃ c, Cruid.from_bytes EXAMPLE_BYTES = some c ∧
      Cruid.to_bytes c = some EXAMPLE_BYTES :=
  C2_roundtrip EXAMPLE_BYTES (by decide) (by decide)

/-- C3: on a well-formed Cruid, decrypt is total (the embedded decode
expect never fires), returns Ok of the little-endian low 8 bytes exactly
when the little-endian tag of the high 8 bytes is zero, and otherwise
fails with Error.Decryption; no other error kind is possible.  The
embedding is a pure function, so the operation has no side effects. -/
theorem C3_decrypt_tag (k : EncryptionKey) (c : Cruid) (hvf : validFormat c.bytes)
    (hkwf : ∀ b, isBytes16 b → isBytes16 (k.decrypt_block b)) :
    ∃ bs, Cruid.to_bytes c = some bs ∧
      k.decrypt c =
        some (if leU64 ((k.decrypt_block bs).drop 8) = 0
          then .ok (leU64 ((k.decrypt_block bs).take 8))
          else .error .Decryption) ∧
      ∀ e, k.decrypt c = some (.error e) → e = .Decryption := by
  obtain ⟨s⟩ := c
  obtain ⟨r, hr, h16, hlt, -⟩ := to_bytes_valid_spec s hvf
  obtain ⟨hdlen, -⟩ := hkwf r ⟨h16, hlt⟩
  have htk : ((k.decrypt_block r).take 8).length = 8 := by
    rw [List.length_take, hdlen]
    omega
  have hdp : ((k.decrypt_block r).drop 8).length = 8 := by
    rw [List.length_drop, hdlen]
  have hmain : EncryptionKey.decrypt k ⟨s⟩ =
      some (if leU64 ((k.decrypt_block r).drop 8) = 0
        then .ok (leU64 ((k.decrypt_block r).take 8))
        else .error .Decryption) := by
    unfold EncryptionKey.decrypt
    simp only [hr]
    rw [if_neg (by simp [htk]), if_neg (by simp [hdp])]
    split_ifs <;> rfl
  refine ⟨r, hr, hmain, ?_⟩
  intro e he
  rw [hmain] at he
  by_cases h0 : leU64 ((k.decrypt_block r).drop 8) = 0
  · rw [if_pos h0] at he
    simp at he
  · rw [if_neg h0] at he
    simp only [Option.some.injEq, Except.error.injEq] at he
    exact he.symm

/-- C3 witness: the identity cipher on the test vector. -/
theorem C3_witness :
    ∃ bs, Cruid.to_bytes ⟨EXAMPLE_CRUID⟩ = some bs ∧
      idKey.decrypt ⟨EXAMPLE_CRUID⟩ =
        some (if leU64 ((idKey.decrypt_block bs).drop 8) = 0
          then .ok (leU64 ((idKey.decrypt_block bs).take 8))
          else .error .Decryption) ∧
      ∀ e, idKey.decrypt ⟨EXAMPLE_CRUID⟩ = some (.error e) → e = .Decryption :=
  C3_decrypt_tag idKey ⟨EXAMPLE_CRUID⟩ (by decide) (fun b h => h)

/-- C4: parse accepts exactly the 36-byte strings with hyphens at
8, 13, 18, 23 and hex digits of either case everywhere else, and on
success returns the input bytes verbatim. -/
theorem C4_parse_characterization (s : List Nat) :
    (Cruid.parse s = .ok ⟨s⟩ ↔ validFormat s) ∧
    ∀ c, Cruid.parse s = .ok c → c.bytes = s := by
  refine ⟨⟨fun h => valid_of_parse_ok h, fun h => parse_ok_of_valid h⟩, ?_⟩
  intro c h
  rw [parse_ok_bytes h]

/-- C4 witness: the test vector parses to itself. -/
theorem C4_witness : Cruid.parse EXAMPLE_CRUID = .ok ⟨EXAMPLE_CRUID⟩ :=
  (C4_parse_characterization EXAMPLE_CRUID).1.mpr (by decide)

/-- C5: from_bytes is total on 16-byte inputs (the expect branch is
unreachable), and its output is 36 bytes of lowercase hex with hyphens at
8, 13, 18, 23, accepted by parse. -/
theorem C5_from_bytes_total (r : List Nat) (h16 : r.length = 16)
    (hlt : ∀ x ∈ r, x < 256) :
    ∃ c, Cruid.from_bytes r = some c ∧ c.bytes.length = 36 ∧
      (∀ i < 36, if i = 8 ∨ i = 13 ∨ i = 18 ∨ i = 23 then c.bytes.getD i 0 = 45
        else isLowerHexDigit (c.bytes.getD i 0) = true) ∧
      Cruid.parse c.bytes = .ok c := by
  obtain ⟨c, h1, -, hlen, hvf, hlow⟩ := from_bytes_spec r h16 hlt
  exact ⟨c, h1, hlen, hlow, parse_ok_of_valid hvf⟩

/-- C5 witness: the crate's test vector. -/
theorem C5_witness :
    ∃ c, Cruid.from_bytes EXAMPLE_BYTES = some c ∧ c.bytes.length = 36 ∧
      (∀ i < 36, if i = 8 ∨ i = 13 ∨ i = 18 ∨ i = 23 then c.bytes.getD i 0 = 45
        else isLowerHexDigit (c.bytes.getD i 0) = true) ∧
      Cruid.parse c.bytes = .ok c :=
  C5_from_bytes_total EXAMPLE_BYTES (by decide) (by decide)

/-- C6: encrypt builds the block little-endian value plus zero tag,
applies the block cipher, and formats with from_bytes; it is
deterministic in (key, plaintext). -/
theorem C6_encrypt_def (k : EncryptionKey) (v : Nat) :
    k.encrypt v =
      Cruid.from_bytes (k.encrypt_block (leBytes8 v ++ List.replicate 8 0)) ∧
    ∀ (k2 : EncryptionKey) (v2 : Nat), k = k2 → v = v2 →
      k.encrypt v = k2.encrypt v2 := by
  refine ⟨?_, ?_⟩
  · unfold EncryptionKey.encrypt
    rw [encrypt_block_shape]
  · rintro k2 v2 rfl rfl
    rfl

/-- C6 witness: the identity cipher at v = 42. -/
theorem C6_witness :
    idKey.encrypt 42 =
      Cruid.from_bytes (idKey.encrypt_block (leBytes8 42 ++ List.replicate 8 0)) ∧
    idKey.encrypt 42 = idKey.encrypt 42 :=
  ⟨(C6_encrypt_def idKey 42).1, (C6_encrypt_def idKey 42).2 idKey 42 rfl rfl⟩

/-- C7: re-encoding the decoded bytes of a valid CRUID text gives back
the text exactly when its hex digits are all lowercase; on a text with an
uppercase digit it gives the lowercased identifier, which decodes to the
same 16 bytes but differs textually. -/
theorem C7_case_roundtrip (s : List Nat) (h : validFormat s) :
    ∃ r c2, Cruid.to_bytes ⟨s⟩ = some r ∧ Cruid.from_bytes r = some c2 ∧
      c2.bytes = s.map toLowerHex ∧
      (c2 = ⟨s⟩ ↔ ∀ x ∈ s, ¬(65 ≤ x ∧ x ≤ 70)) ∧
      ((∃ x ∈ s, 65 ≤ x ∧ x ≤ 70) → Cruid.to_bytes c2 = some r ∧ c2 ≠ ⟨s⟩) := by
  obtain ⟨r, hr, h16, hlt, hfb⟩ := to_bytes_valid_spec s h
  refine ⟨r, ⟨s.map toLowerHex⟩, hr, hfb, rfl, ?_, ?_⟩
  · rw [Cruid.mk.injEq]
    exact map_toLowerHex_eq_self
  · intro hex
    constructor
    · obtain ⟨c2, hc2, htb, -, -, -⟩ := from_bytes_spec r h16 hlt
      rw [hfb] at hc2
      rw [Option.some.inj hc2]
      exact htb
    · rw [Ne, Cruid.mk.injEq]
      intro hmap
      obtain ⟨x, hx, hup⟩ := hex
      exact map_toLowerHex_eq_self.mp hmap x hx hup

/-- C7 witness: the test vector with one uppercase digit. -/
theorem C7_witness :
    ∃ r c2, Cruid.to_bytes ⟨EXAMPLE_CRUID_UPPER⟩ = some r ∧
      Cruid.from_bytes r = some c2 ∧
      c2.bytes = EXAMPLE_CRUID_UPPER.map toLowerHex ∧
      (c2 = ⟨EXAMPLE_CRUID_UPPER⟩ ↔
        ∀ x ∈ EXAMPLE_CRUID_UPPER, ¬(65 ≤ x ∧ x ≤ 70)) ∧
      ((∃ x ∈ EXAMPLE_CRUID_UPPER, 65 ≤ x ∧ x ≤ 70) →
        Cruid.to_bytes c2 = some r ∧ c2 ≠ ⟨EXAMPLE_CRUID_UPPER⟩) :=
  C7_case_roundtrip EXAMPLE_CRUID_UPPER (by decide)

/-- C8: parse rejects every input whose length is not 36 with
Error.Length (including the empty one), and every otherwise-valid
36-byte input with a non-hyphen byte at a separator position with
Error.Encoding. -/
theorem C8_parse_errors :
    (∀ s : List Nat, s.length ≠ 36 → Cruid.parse s = .error .Length) ∧
    (∀ (s : List Nat) (p : Nat), s.length = 36 →
      (∀ i < 36, ¬(i = 8 ∨ i = 13 ∨ i = 18 ∨ i = 23) →
        isHexDigit (s.getD i 0) = true) →
      (p = 8 ∨ p = 13 ∨ p = 18 ∨ p = 23) → s.getD p 0 ≠ 45 →
      Cruid.parse s = .error .Encoding) :=
  ⟨fun _ h => parse_length_error h,
   fun _ _ h36 _ hp hne => parse_hyphen_error h36 hp hne⟩

/-- C8 witness: the empty input and a 36-digit input without hyphens. -/
theorem C8_witness :
    Cruid.parse ([] : List Nat) = .error .Length ∧
    Cruid.parse (List.replicate 36 48) = .error .Encoding :=
  ⟨C8_parse_errors.1 [] (by decide),
   C8_parse_errors.2 (List.replicate 36 48) 8 (by decide) (by decide)
     (by decide) (by decide)⟩

/-- C9: every Cruid produced by parse or from_bytes satisfies the format
invariant, so to_bytes cannot reach its fatal decode branch and every
byte is ASCII (as_str's unchecked UTF-8 view is sound). -/
theorem C9_invariant (s r : List Nat) (c : Cruid) :
    (Cruid.parse s = .ok c →
      validFormat c.bytes ∧ (Cruid.to_bytes c).isSome ∧ ∀ x ∈ c.bytes, x < 128) ∧
    (r.length = 16 → (∀ x ∈ r, x < 256) → Cruid.from_bytes r = some c →
      validFormat c.bytes ∧ (Cruid.to_bytes c).isSome ∧ ∀ x ∈ c.bytes, x < 128) := by
  constructor
  · intro h
    have hb := parse_ok_bytes h
    subst hb
    have hv : validFormat s := valid_of_parse_ok h
    obtain ⟨r2, hr2, -, -, -⟩ := to_bytes_valid_spec s hv
    exact ⟨hv, by rw [hr2]; rfl, validFormat_ascii hv⟩
  · intro h16 hlt hfb
    obtain ⟨c2, hc2, htb, -, hv, -⟩ := from_bytes_spec r h16 hlt
    rw [hfb] at hc2
    obtain rfl := Option.some.inj hc2
    exact ⟨hv, by rw [htb]; rfl, validFormat_ascii hv⟩

/-- C9 witness: the parsed test vector. -/
theorem C9_witness :
    validFormat (Cruid.mk EXAMPLE_CRUID).bytes ∧
    (Cruid.to_bytes ⟨EXAMPLE_CRUID⟩).isSome ∧
    ∀ x ∈ (Cruid.mk EXAMPLE_CRUID).bytes, x < 128 :=
  (C9_invariant EXAMPLE_CRUID EXAMPLE_BYTES ⟨EXAMPLE_CRUID⟩).1 (by decide)

/-- C10: Cruid equality is equality of the serialized text, not of the
decoded value: two parses differing only in hex-digit case decode to the
same bytes but compare unequal. -/
theorem C10_textual_equality :
    ∃ c1 c2 : Cruid, Cruid.parse EXAMPLE_CRUID = .ok c1 ∧
      Cruid.parse EXAMPLE_CRUID_UPPER = .ok c2 ∧
      EXAMPLE_CRUID.map toLowerHex = EXAMPLE_CRUID_UPPER.map toLowerHex ∧
      Cruid.to_bytes c1 = Cruid.to_bytes c2 ∧ c1 ≠ c2 := by
  refine ⟨⟨EXAMPLE_CRUID⟩, ⟨EXAMPLE_CRUID_UPPER⟩, ?_, ?_, ?_, ?_, ?_⟩ <;> decide

end CruidSpec
